import Mathlib

/-!
Verification of the GhostType resident inference service
(`src/python/service.py`) against its natural-language specification.

The Python source is shallowly embedded: audio samples are modelled as
rationals where the code only moves samples around (framing, segmentation,
resampling) and as reals where it does transcendental arithmetic (dBFS
estimation, the tanh soft limiter, gain smoothing); machine floats are
modelled as exact arithmetic.  Stateful code (the idle watchdog, the
generation lock) is modelled as explicit state-passing and as a step
relation on a state type.  Python `dict` diagnostics are association
lists; optional native modules are `Option`-valued parameters; code that
catches exceptions from a collaborator takes that collaborator as an
`Except`-valued function.
-/

namespace GhostType

/-- Python's `round` on a rational value: round half to even
(banker's rounding), as used by `round(x)` in the source. -/
def pythonRound (q : ℚ) : ℤ :=
  let f : ℤ := ⌊q⌋
  let r : ℚ := q - f
  if r < 1/2 then f
  else if 1/2 < r then f + 1
  else if f % 2 = 0 then f else f + 1

/-- `_clamp_float(value, fallback, lower, upper)` (service.py:257):
parse failure (`none`) falls back, then the value is clamped to
`[lower, upper]`. -/
def clampFloat (value : Option ℚ) (fallback lower upper : ℚ) : ℚ :=
  max lower (min upper (value.getD fallback))

/-- `_clamp_max_tokens` (service.py:877): `max(1, min(int(value), 350))`. -/
def clampMaxTokens (value : ℤ) : ℤ :=
  max 1 (min value 350)

/-- `run_dictate` (service.py:2283): the `max_tokens` value handed to the
generation call is `_clamp_max_tokens(req.max_tokens)`, unchanged. -/
def runDictateMaxTokens (requested : ℤ) : ℤ :=
  clampMaxTokens requested

/-- `run_ask` / `stream_ask` (service.py:2358, 2402): same clamping. -/
def runAskMaxTokens (requested : ℤ) : ℤ :=
  clampMaxTokens requested

/-- `run_translate` / `stream_translate` (service.py:2447, 2484). -/
def runTranslateMaxTokens (requested : ℤ) : ℤ :=
  clampMaxTokens requested

/-- `stream_prepared_transcript` (service.py:2538). -/
def preparedTranscriptMaxTokens (requested : ℤ) : ℤ :=
  clampMaxTokens requested

/-- One Piecewise-linear interpolation step of `np.interp`: walk the
`(x, y)` sample points carrying the previous point; a query left of the
next point interpolates between the carried point and the next one. -/
def npInterpGo (t : ℚ) (px py : ℚ) : List (ℚ × ℚ) → ℚ
  | [] => py
  | (x2, y2) :: rest =>
      if t ≤ x2 then py + (y2 - py) * (t - px) / (x2 - px)
      else npInterpGo t x2 y2 rest

/-- `np.interp(t, xp, fp)` for increasing `xp`: clamps left of `xp[0]`
and right of `xp[-1]`, linear in between. -/
def npInterp (t : ℚ) : List (ℚ × ℚ) → ℚ
  | [] => 0
  | (x0, y0) :: rest => if t ≤ x0 then y0 else npInterpGo t x0 y0 rest

/-- `_resample_linear` (service.py:2033): identity when the signal is
empty or the rates agree; otherwise linear interpolation of the signal
over the normalized time axes `linspace(0, 1, num=len, endpoint=False)`
with `dst_len = max(1, round(src_len * dst_rate / src_rate))`.
The trailing `astype(np.float32)` is the identity in this model. -/
def resampleLinear (signal : List ℚ) (srcRate dstRate : ℕ) : List ℚ :=
  if signal.length = 0 ∨ srcRate = dstRate then signal
  else
    let srcLen := signal.length
    let dstLen := max 1 (pythonRound ((srcLen * dstRate : ℚ) / (srcRate : ℚ))).toNat
    let pts := (List.range srcLen).zip signal |>.map
      (fun p => ((p.1 : ℚ) / (srcLen : ℚ), p.2))
    (List.range dstLen).map (fun j => npInterp ((j : ℚ) / (dstLen : ℚ)) pts)

/-- Appending to a Python deque with maxlen `n`: append on the right and
keep only the `n` newest elements. -/
def pushMax {α : Type} (n : ℕ) (xs : List α) (x : α) : List α :=
  let ys := xs ++ [x]
  ys.drop (ys.length - n)

/-- `_split_into_frames` (service.py:2017): slices of `frameSize`
samples, the final slice zero-padded to full length; the empty signal
yields no frames.  (`frameSize = 0` raises in Python; here it yields no
frames, and every caller passes 160.) -/
def splitIntoFrames {α : Type} [Zero α] (signal : List α) (frameSize : ℕ) :
    List (List α) :=
  (List.range ((signal.length + frameSize - 1) / frameSize)).map (fun i =>
    let chunk := (signal.drop (i * frameSize)).take frameSize
    chunk ++ List.replicate (frameSize - chunk.length) 0)

/-- The per-call constants `_segment_by_vad` derives from its arguments
(service.py:1694-1699); `enter_speech_frames = 3` and the 60-frame
adaptive window are kept literal. -/
structure SegParams where
  preRollFrames : ℕ
  baseExitSilenceFrames : ℕ
  adaptiveMinExitFrames : ℕ
  maxSegmentFrames : ℕ
  frameSize : ℕ
deriving Repr, DecidableEq

/-- The loop state of `_segment_by_vad` (service.py:1701-1712). -/
structure SegState where
  inSegment : Bool
  speechRun : ℕ
  silenceRun : ℕ
  recentFlags : List Bool
  preRoll : List (List ℚ)
  currentFrames : List (List ℚ)
  segments : List (List ℚ)
  preRollHits : ℕ
  forcedSplits : ℕ
  ignoredShort : ℕ
  fastExitHits : ℕ
deriving Repr, DecidableEq

/-- One iteration of the `_segment_by_vad` frame loop
(service.py:1714-1757), transliterated branch for branch. -/
def segStep (p : SegParams) (s : SegState) (fr : List ℚ) (isSpeech : Bool) :
    SegState :=
  let recent := pushMax 60 s.recentFlags isSpeech
  let pre := pushMax p.preRollFrames s.preRoll fr
  if s.inSegment = false then
    let sr := if isSpeech then s.speechRun + 1 else 0
    if 3 ≤ sr then
      { s with
        recentFlags := recent
        preRoll := pre
        inSegment := true
        preRollHits := s.preRollHits + (if 3 < pre.length then 1 else 0)
        currentFrames := pre
        silenceRun := 0
        speechRun := 0 }
    else
      { s with
        recentFlags := recent
        preRoll := pre
        speechRun := sr }
  else
    let cur := s.currentFrames ++ [fr]
    let sil := if isSpeech then 0 else s.silenceRun + 1
    if p.maxSegmentFrames ≤ cur.length then
      { s with
        recentFlags := recent
        preRoll := pre
        segments := s.segments ++ [cur.flatten]
        currentFrames := []
        forcedSplits := s.forcedSplits + 1
        silenceRun := 0 }
    else
      let stable := decide (60 ≤ recent.length) && !(recent.any (fun b => b))
      let effective :=
        if stable then p.adaptiveMinExitFrames else p.baseExitSilenceFrames
      let fast := s.fastExitHits + (if stable then 1 else 0)
      if effective ≤ sil then
        let keep := max 1 (cur.length - (sil - 2))
        let seg := (cur.take keep).flatten
        if p.frameSize * 3 ≤ seg.length then
          { s with
            recentFlags := recent
            preRoll := pre
            segments := s.segments ++ [seg]
            currentFrames := []
            inSegment := false
            speechRun := 0
            silenceRun := 0
            fastExitHits := fast }
        else
          { s with
            recentFlags := recent
            preRoll := pre
            ignoredShort := s.ignoredShort + 1
            currentFrames := []
            inSegment := false
            speechRun := 0
            silenceRun := 0
            fastExitHits := fast }
      else
        { s with
          recentFlags := recent
          preRoll := pre
          currentFrames := cur
          silenceRun := sil
          fastExitHits := fast }

/-- The diagnostic counters `_segment_by_vad` reports
(service.py:1771-1781); timing-free fields only. -/
structure SegCounters where
  segmentCount : ℕ
  preRollHits : ℕ
  forcedSplits : ℕ
  ignoredShort : ℕ
  fastExitHits : ℕ
deriving Repr, DecidableEq

/-- The state of `_segment_by_vad` when its frame loop starts
(service.py:1701-1712). -/
def segInit : SegState :=
  ⟨false, 0, 0, [], [], [], [], 0, 0, 0, 0⟩

/-- The `for frame, is_speech in zip(frames, vad_flags)` loop of
`_segment_by_vad`. -/
def runSegLoop (p : SegParams) (pairs : List (List ℚ × Bool)) (s : SegState) :
    SegState :=
  pairs.foldl (fun t q => segStep p t q.1 q.2) s

/-- The end-of-input flush of `_segment_by_vad` (service.py:1759-1764):
any in-progress frames become a segment when at least three frames long,
otherwise they are dropped and counted as ignored-short.  Returns the
final segment list and ignored-short count. -/
def segFlush (frameSize : ℕ) (s : SegState) : List (List ℚ) × ℕ :=
  if s.currentFrames = [] then (s.segments, s.ignoredShort)
  else
    let tail := s.currentFrames.flatten
    if frameSize * 3 ≤ tail.length then
      (s.segments ++ [tail], s.ignoredShort)
    else (s.segments, s.ignoredShort + 1)

/-- The loop constants of `_segment_by_vad` (service.py:1694-1699):
`pre_roll_frames = max(0, min(round(pre_roll_ms/10), 50))`,
`base = max(20, min(round(anti_cutoff_pause_ms/10), 120))`,
`adaptive = max(12, min(18, round(base*0.5)))`,
`max_segment_frames = int(30*16000/frame_size)`. -/
def segParamsOf (antiCutoffPauseMs : ℤ) (frameSize : ℕ) (preRollMs : ℤ) :
    SegParams :=
  let baseExit := (max 20 (min (pythonRound ((antiCutoffPauseMs : ℚ) / 10)) 120)).toNat
  { preRollFrames := (max 0 (min (pythonRound ((preRollMs : ℚ) / 10)) 50)).toNat
    baseExitSilenceFrames := baseExit
    adaptiveMinExitFrames := (max 12 (min 18 (pythonRound ((baseExit : ℚ) / 2)))).toNat
    maxSegmentFrames := (30 * 16000) / frameSize
    frameSize := frameSize }

/-- `_segment_by_vad` (service.py:1683-1782): empty input yields no
segments; otherwise the frame loop runs over `zip(frames, vad_flags)`
and the residual segment is flushed under the three-frame minimum. -/
def segmentByVad (frames : List (List ℚ)) (vadFlags : List Bool)
    (antiCutoffPauseMs : ℤ) (frameSize : ℕ) (preRollMs : ℤ) :
    List (List ℚ) × SegCounters :=
  if frames = [] ∨ vadFlags = [] then ([], ⟨0, 0, 0, 0, 0⟩)
  else
    let p := segParamsOf antiCutoffPauseMs frameSize preRollMs
    let sEnd := runSegLoop p (frames.zip vadFlags) segInit
    let withTail := segFlush frameSize sEnd
    (withTail.1,
      ⟨withTail.1.length, sEnd.preRollHits, sEnd.forcedSplits, withTail.2,
        sEnd.fastExitHits⟩)

/-- Total number of samples over a list of segments (or frames). -/
def segTotal (segs : List (List ℚ)) : ℕ :=
  (segs.map List.length).sum

/-- Invariant of the segmenter loop: pre-roll and in-progress frames all
have the nominal frame length, and every emitted segment has at least
three frames' worth of samples. -/
def SegLenInv (fs : ℕ) (s : SegState) : Prop :=
  (∀ f ∈ s.preRoll, f.length = fs) ∧
  (∀ f ∈ s.currentFrames, f.length = fs) ∧
  ∀ g ∈ s.segments, fs * 3 ≤ g.length

/-- Samples held by the segmenter loop state: emitted segments plus the
in-progress segment. -/
def segSampleLoad (s : SegState) : ℕ :=
  segTotal s.segments + segTotal s.currentFrames

/-- The runtime state the idle watchdog reads (service.py:478-490):
the configured idle timeout, whether an LLM model is loaded
(`_llm_model is not None`), and the `_last_active` monotonic stamp. -/
structure WatchState where
  idleTimeoutSeconds : Option ℚ
  modelLoaded : Bool
  lastActive : ℚ
deriving Repr, DecidableEq

/-- The watchdog's poll condition (service.py:484-488):
`timeout is not None and self._llm_model is not None and elapsed >= timeout`
where `elapsed = time.monotonic() - self._last_active`. -/
def watchdogShouldRelease (now : ℚ) (s : WatchState) : Bool :=
  match s.idleTimeoutSeconds with
  | none => false
  | some t => s.modelLoaded && decide (t ≤ now - s.lastActive)

/-- One poll of `_watchdog_loop` (service.py:478): when the condition
holds it calls `release_models` (service.py:1062), which clears the
model handles and touches `_last_active`; otherwise nothing changes. -/
def watchdogPoll (now : ℚ) (s : WatchState) : WatchState :=
  if watchdogShouldRelease now s then
    { idleTimeoutSeconds := s.idleTimeoutSeconds
      modelLoaded := false
      lastActive := now }
  else s

/-- Python `int(q)`: truncation toward zero. -/
def pythonInt (q : ℚ) : ℤ :=
  if q < 0 then ⌈q⌉ else ⌊q⌋

/-- The normalized request configuration built by
`_audio_config_from_request` (service.py:1079-1221); the `limiter`,
`targets` and `vad` dictionaries are flattened into fields. -/
structure AudioEnhancementConfig where
  enabled : Bool
  inference_audio_profile : String
  enhancement_version : String
  enhancement_mode : String
  mode : String
  ns_engine : String
  loudness_strategy : String
  dynamics : String
  low_volume_boost : String
  noise_suppression_level : String
  anti_cutoff_pause_ms : ℤ
  audio_debug_enabled : Bool
  limiter_enabled : Bool
  limiter_threshold : ℚ
  limiter_attack_ms : ℚ
  limiter_release_ms : ℚ
  targets_lufs_target : ℚ
  targets_max_gain_db : ℚ
  vad_engine : String
  vad_aggressiveness : ℤ
  vad_preroll_ms : ℤ
  vad_hangover_ms : ℤ

/-- The configuration `_audio_config_from_request` produces for a
request that supplies no overrides (all documented defaults). -/
def defaultAudioConfig : AudioEnhancementConfig :=
  { enabled := true
    inference_audio_profile := "standard"
    enhancement_version := "v2"
    enhancement_mode := "fast_dsp"
    mode := "webrtc"
    ns_engine := "webrtc"
    loudness_strategy := "dynaudnorm"
    dynamics := "upward_comp"
    low_volume_boost := "medium"
    noise_suppression_level := "moderate"
    anti_cutoff_pause_ms := 350
    audio_debug_enabled := false
    limiter_enabled := true
    limiter_threshold := 98/100
    limiter_attack_ms := 5
    limiter_release_ms := 50
    targets_lufs_target := -18
    targets_max_gain_db := 18
    vad_engine := "webrtcvad"
    vad_aggressiveness := 1
    vad_preroll_ms := 100
    vad_hangover_ms := 350 }

/-- A named diagnostic value in an `EnhancementStats`-style dictionary. -/
inductive StatVal where
  | num (x : ℝ)
  | intVal (n : ℤ)
  | str (s : String)
  | flag (b : Bool)

/-- Diagnostic dictionaries, modelled as association lists; the source
only ever adds keys (`dict.update` with disjoint keys), which appends. -/
abbrev Stats := List (String × StatVal)

/-- `_estimate_rms_dbfs` (service.py:2043): `-120` on the empty signal,
otherwise `20*log10(max(sqrt(mean(x^2)), 1e-7))`. -/
noncomputable def estimateRmsDbfs (s : List ℝ) : ℝ :=
  if s.length = 0 then -120
  else 20 * Real.logb 10
    (max (Real.sqrt ((s.map (fun x => x ^ 2)).sum / s.length)) (1e-7))

/-- `_estimate_peak_dbfs` (service.py:2049): `-120` on the empty signal,
otherwise `20*log10(max(max|x|, 1e-7))`.  (`np.max` over `|x|` values is
a fold of `max` seeded with 0; the seed is absorbed since `|x| >= 0`.) -/
noncomputable def estimatePeakDbfs (s : List ℝ) : ℝ :=
  if s.length = 0 then -120
  else 20 * Real.logb 10 (max ((s.map (fun x => |x|)).foldr max 0) (1e-7))

/-- The `rms_gate_map` lookup of `_detect_speech_frames`
(service.py:1618-1622, 1647): keyed on `audio_config.low_volume_boost`
with default `-52.0`. -/
def rmsGateFor (lowVolumeBoost : String) : ℝ :=
  if lowVolumeBoost = "low" then -49
  else if lowVolumeBoost = "medium" then -52
  else if lowVolumeBoost = "high" then -55
  else -52

/-- The per-frame energy classification of `_detect_speech_frames`
(service.py:1661-1664): speech when `rms_db >= rms_gate` or
`peak_db >= rms_gate + 8`. -/
noncomputable def energyFrameFlag (cfg : AudioEnhancementConfig)
    (frame : List ℝ) : Bool :=
  decide (rmsGateFor cfg.low_volume_boost ≤ estimateRmsDbfs frame) ||
  decide (rmsGateFor cfg.low_volume_boost + 8 ≤ estimatePeakDbfs frame)

/-- The gate the specification describes for the energy fallback: keyed
on the noise-suppression level.  (Written from the spec's words, for
comparison with `rmsGateFor`, which the code keys on the low-volume
boost level.) -/
def specNoiseGateFor (noiseLevel : String) : ℝ :=
  if noiseLevel = "low" then -49
  else if noiseLevel = "medium" then -52
  else if noiseLevel = "high" then -55
  else -52

/-- The classification the specification describes for the energy
fallback, gate keyed on the noise-suppression level. -/
noncomputable def specEnergySpeech (cfg : AudioEnhancementConfig)
    (frame : List ℝ) : Prop :=
  specNoiseGateFor cfg.noise_suppression_level ≤ estimateRmsDbfs frame ∨
  specNoiseGateFor cfg.noise_suppression_level + 8 ≤ estimatePeakDbfs frame

/-- The frame loop of `_detect_speech_frames` (service.py:1650-1666).
A dedicated detector classifies each frame; `none` from the detector is
a per-frame exception, after which the detector is dropped and the
energy gate classifies this and all remaining frames. -/
noncomputable def detectSpeechLoop (cfg : AudioEnhancementConfig)
    (frames : List (List ℝ)) (det : Option (List ℝ → Option Bool)) :
    List Bool :=
  match frames with
  | [] => []
  | fr :: rest =>
    match det with
    | some d =>
      match d fr with
      | some sp => sp :: detectSpeechLoop cfg rest (some d)
      | none => energyFrameFlag cfg fr :: detectSpeechLoop cfg rest none
    | none => energyFrameFlag cfg fr :: detectSpeechLoop cfg rest none

/-- `_detect_speech_frames` (service.py:1602-1681), flags only (the
stats dictionary carries no control flow).  `webrtcDetector` models the
optional `webrtcvad` module together with `Vad()` construction: `none`
when the module is missing or construction raised.  The detector is only
consulted when the requested engine is not `energy` and the mode or
engine version allows it (service.py:1632-1639). -/
noncomputable def detectSpeechFrames (cfg : AudioEnhancementConfig)
    (requestedEngine : String) (webrtcDetector : Option (List ℝ → Option Bool))
    (frames : List (List ℝ)) : List Bool :=
  let det :=
    if requestedEngine = "energy" then none
    else if cfg.mode = "webrtc" ∨ cfg.mode = "system_voice_processing" ∨
        cfg.enhancement_version = "v2" then webrtcDetector
    else none
  detectSpeechLoop cfg frames det

/-- One clipped sample of `_apply_soft_limiter` (service.py:1836-1841):
`np.clip(tanh(x*1.6)/tanh(1.6), -1, 1)`. -/
noncomputable def limitSample (x : ℝ) : ℝ :=
  min 1 (max (-1) (Real.tanh (x * 1.6) / Real.tanh 1.6))

/-- `_apply_soft_limiter` (service.py:1836): the limited signal plus the
`limiter_trigger_count` stat, which counts samples whose pre-limiter
magnitude exceeds 0.97. -/
noncomputable def applySoftLimiter (signal : List ℝ) : List ℝ × Stats :=
  (signal.map limitSample,
    [("limiter_trigger_count",
      StatVal.intVal (signal.countP (fun x => decide ((0.97:ℝ) < |x|))))])

/-- Python `round(x, 2)` on a real value: banker's rounding at the
second decimal. -/
noncomputable def pythonRoundR (x : ℝ) : ℤ :=
  if x - ⌊x⌋ < 1/2 then ⌊x⌋
  else if 1/2 < x - ⌊x⌋ then ⌊x⌋ + 1
  else if (⌊x⌋ : ℤ) % 2 = 0 then ⌊x⌋ else ⌊x⌋ + 1

/-- `round(x, 2)` as used for the gain stats. -/
noncomputable def round2 (x : ℝ) : ℝ :=
  (pythonRoundR (x * 100) : ℝ) / 100

/-- The `range(0, size, frame_size)` slicing of `_apply_low_volume_boost`
(service.py:1811): chunks of up to `n` samples, final chunk unpadded. -/
def chunksOf {α : Type} (n : ℕ) (s : List α) : List (List α) :=
  (List.range ((s.length + n - 1) / n)).map (fun i => (s.drop (i * n)).take n)

/-- One AGC frame of `_apply_low_volume_boost` (service.py:1811-1824):
desired gain clamped to `[0, max_gain_db]`, smoothed with attack 0.25
when increasing and release 0.08 otherwise, applied in the linear
domain.  The accumulator carries the smoothed gain, the processed
chunks, and the gain trace. -/
noncomputable def boostStep (maxGainDb targetRmsDb : ℝ)
    (acc : ℝ × List (List ℝ) × List ℝ) (frame : List ℝ) :
    ℝ × List (List ℝ) × List ℝ :=
  let desired := max 0 (min maxGainDb (targetRmsDb - estimateRmsDbfs frame))
  let smoothing : ℝ := if acc.1 < desired then 0.25 else 0.08
  let g := acc.1 + smoothing * (desired - acc.1)
  (g, acc.2.1 ++ [frame.map (fun x => x * (10:ℝ) ^ (g / 20))], acc.2.2 ++ [g])

/-- `_apply_low_volume_boost` (service.py:1784-1834): skipped entirely
when the input RMS is within 1 dB of target and the peak is at least
-8 dBFS; otherwise the per-10 ms-frame AGC loop runs. -/
noncomputable def applyLowVolumeBoost (cfg : AudioEnhancementConfig)
    (signal : List ℝ) : List ℝ × Stats :=
  let maxGainDb : ℝ :=
    if cfg.low_volume_boost = "low" then 8
    else if cfg.low_volume_boost = "medium" then 12
    else if cfg.low_volume_boost = "high" then 18
    else 12
  let targetRmsDb : ℝ :=
    if cfg.low_volume_boost = "low" then -26
    else if cfg.low_volume_boost = "medium" then -24
    else if cfg.low_volume_boost = "high" then -22
    else -24
  if targetRmsDb - 1 ≤ estimateRmsDbfs signal ∧
      (-8:ℝ) ≤ estimatePeakDbfs signal then
    (signal,
      [("gain_skipped", StatVal.flag true),
       ("gain_skip_reason", StatVal.str "input_within_target"),
       ("gain_target_rms_dbfs", StatVal.num (round2 targetRmsDb)),
       ("gain_max_allowed_db", StatVal.num (round2 maxGainDb)),
       ("gain_avg_db", StatVal.num 0),
       ("gain_peak_db", StatVal.num 0)])
  else
    let res := (chunksOf 160 signal).foldl (boostStep maxGainDb targetRmsDb)
      (0, [], [])
    let gains := res.2.2
    let avg : ℝ := if gains = [] then 0 else gains.sum / gains.length
    let peakG : ℝ := match gains with | [] => 0 | h :: t => t.foldl max h
    (res.2.1.flatten,
      [("gain_target_rms_dbfs", StatVal.num (round2 targetRmsDb)),
       ("gain_max_allowed_db", StatVal.num (round2 maxGainDb)),
       ("gain_avg_db", StatVal.num (round2 avg)),
       ("gain_peak_db", StatVal.num (round2 peakG))])

/-- `_apply_low_volume_boost_and_limiter` (service.py:1949): boost, then
soft limiter, stats merged additively (the key sets are disjoint). -/
noncomputable def applyLowVolumeBoostAndLimiter
    (cfg : AudioEnhancementConfig) (signal : List ℝ) : List ℝ × Stats :=
  let boosted := applyLowVolumeBoost cfg signal
  let limited := applySoftLimiter boosted.1
  (limited.1, boosted.2 ++ limited.2)

/-- The limiter sub-configuration of the v2 engine
(service.py:1504-1509). -/
structure EnhancementLimiterConfig where
  enabled : Bool
  threshold : ℚ
  attack_ms : ℚ
  release_ms : ℚ
deriving Repr, DecidableEq

/-- The loudness-targets sub-configuration (service.py:1510-1513). -/
structure EnhancementTargetsConfig where
  lufs_target : ℚ
  max_gain_db : ℚ
deriving Repr, DecidableEq

/-- The VAD sub-configuration (service.py:1514-1526). -/
structure EnhancementVADConfig where
  engine : String
  aggressiveness : ℤ
  preroll_ms : ℤ
  hangover_ms : ℤ
deriving Repr, DecidableEq

/-- The full v2 engine configuration (service.py:1527-1537). -/
structure EnhancementV2Config where
  mode : String
  ns_engine : String
  noise_suppression_level : String
  loudness_strategy : String
  dynamics : String
  limiter : EnhancementLimiterConfig
  targets : EnhancementTargetsConfig
  vad : EnhancementVADConfig
  hpf_cutoff_hz : ℚ
deriving Repr, DecidableEq

/-- `_build_v2_engine_config` (service.py:1498-1537): `none` when any of
the imported config classes is unavailable; otherwise the clamped
configuration (`int()` truncates toward zero). -/
def buildV2EngineConfig (classesAvailable : Bool)
    (cfg : AudioEnhancementConfig) : Option EnhancementV2Config :=
  if classesAvailable = false then none
  else some
    { mode := cfg.enhancement_mode
      ns_engine := cfg.ns_engine
      noise_suppression_level := cfg.noise_suppression_level
      loudness_strategy := cfg.loudness_strategy
      dynamics := cfg.dynamics
      limiter :=
        ⟨cfg.limiter_enabled,
         clampFloat (some cfg.limiter_threshold) (98/100) (6/10) (999/1000),
         clampFloat (some cfg.limiter_attack_ms) 5 (1/10) 100,
         clampFloat (some cfg.limiter_release_ms) 50 1 500⟩
      targets :=
        ⟨clampFloat (some cfg.targets_lufs_target) (-18) (-32) (-10),
         clampFloat (some cfg.targets_max_gain_db) 18 0 36⟩
      vad :=
        ⟨cfg.vad_engine,
         pythonInt (clampFloat (some (cfg.vad_aggressiveness : ℚ)) 1 0 3),
         pythonInt (clampFloat (some (cfg.vad_preroll_ms : ℚ)) 100 0 500),
         pythonInt (clampFloat (some (cfg.vad_hangover_ms : ℚ))
           (cfg.anti_cutoff_pause_ms : ℚ) 100 1200)⟩
      hpf_cutoff_hz := 80 }

/-- `_speech_mask_from_vad_flags` (service.py:1539-1556): a per-sample
boolean mask; sample `i` is marked when frame `i / frameSize` exists and
was flagged as speech.  (For `frameSize = 0` the Python loop breaks
immediately; no caller passes 0.) -/
def speechMaskFromVadFlags (flags : List Bool) (frameSize totalSamples : ℕ) :
    List Bool :=
  if frameSize = 0 then List.replicate totalSamples false
  else (List.range totalSamples).map (fun i =>
    decide (i / frameSize < flags.length) && flags.getD (i / frameSize) false)

/-- The optional v2 enhancement engine (`EnhancementEngine`,
service.py:1590-1592).  `process` covers both construction and
`engine.process`; a raised exception is the `error` case carrying
`str(exc)`. -/
structure V2Engine where
  process : EnhancementV2Config → List ℝ → List Bool →
    Except String (List ℝ × Stats)

/-- `_apply_enhancement_v2` (service.py:1558-1600): missing module,
unavailable config classes, or an engine exception all fall back to the
legacy boost-plus-limiter result, tagging `v2_backend` (and `v2_error`)
in the stats; a successful engine run tags `enhancement_engine_v2`. -/
noncomputable def applyEnhancementV2 (engineMod : Option V2Engine)
    (classesAvailable : Bool)
    (webrtcDetector : Option (List ℝ → Option Bool))
    (cfg : AudioEnhancementConfig) (signal : List ℝ) : List ℝ × Stats :=
  match engineMod with
  | none =>
    let r := applyLowVolumeBoostAndLimiter cfg signal
    (r.1, r.2 ++ [("v2_backend", StatVal.str "legacy_fallback_module_missing")])
  | some engine =>
    let probeFlags := detectSpeechFrames cfg cfg.vad_engine webrtcDetector
      (splitIntoFrames signal 160)
    let mask := speechMaskFromVadFlags probeFlags 160 signal.length
    match buildV2EngineConfig classesAvailable cfg with
    | none =>
      let r := applyLowVolumeBoostAndLimiter cfg signal
      (r.1, r.2 ++ [("v2_backend", StatVal.str "legacy_fallback_config_missing")])
    | some v2cfg =>
      match engine.process v2cfg signal mask with
      | .ok result =>
        (result.1, result.2 ++ [("v2_backend", StatVal.str "enhancement_engine_v2")])
      | .error e =>
        let r := applyLowVolumeBoostAndLimiter cfg signal
        (r.1, r.2 ++ [("v2_backend", StatVal.str "legacy_fallback_runtime_error"),
          ("v2_error", StatVal.str e)])

/-- The audio units and temporary files `_prepare_audio_for_transcription`
returns (service.py:1366-1392); stats are elided here, none of the
early-return branches being conditioned on them. -/
structure AudioEnhancementResult where
  transcribe_paths : List String
  cleanup_paths : List String
deriving Repr, DecidableEq

/-- The early-return structure of `_prepare_audio_for_transcription`
(service.py:1343-1392): disabled enhancement or mode `off` returns the
original path with nothing to clean up; a failed load (the caught
exception is the `error` case) and a zero-length decoded signal do the
same; otherwise the enhancement pipeline (`rest`, service.py:1394-1496)
runs on the decoded signal. -/
def prepareAudioForTranscription (cfg : AudioEnhancementConfig)
    (audioPath : String) (loadResult : Except String (List ℚ))
    (rest : List ℚ → AudioEnhancementResult) : AudioEnhancementResult :=
  if cfg.enabled = false ∨ cfg.mode = "off" then
    ⟨[audioPath], []⟩
  else
    match loadResult with
    | .error _ => ⟨[audioPath], []⟩
    | .ok signal =>
      if signal.length = 0 then ⟨[audioPath], []⟩
      else rest signal

/-- The two generation calls whose tokens may interleave. -/
inductive GenCaller where
  | first
  | second
deriving Repr, DecidableEq

/-- Where one generation call stands: not yet started, holding the
generation lock with `k` tokens produced so far, or finished having
produced `k` tokens. -/
inductive GenStatus where
  | idle
  | holding (produced : ℕ)
  | finished (produced : ℕ)
deriving Repr, DecidableEq

/-- Tokens produced so far by a call in the given status. -/
def GenStatus.produced : GenStatus → ℕ
  | .idle => 0
  | .holding k => k
  | .finished k => k

/-- The shared state of two generation calls on one runtime instance:
the `_generation_lock` owner, each call's status, and the interleaved
trace of token-production events. -/
structure GenSystem where
  lockOwner : Option GenCaller
  stFirst : GenStatus
  stSecond : GenStatus
  tokens : List GenCaller
deriving Repr, DecidableEq

/-- The initial state: lock free, neither call started, no tokens. -/
def genInit : GenSystem :=
  ⟨none, .idle, .idle, []⟩

/-- One step of the two generation calls against the generation lock,
following `_generate_chat` (service.py:2089-2118) and
`_stream_generate_chat` (service.py:2120-2137).  A call acquires the
free lock before any token (`acquire` at service.py:2095 and the `with`
at service.py:2121); a non-blocking attempt against a held lock gives up
having produced nothing (service.py:2095-2097); tokens are produced one
at a time while holding; the lock is released only after the last token
(the `finally` at service.py:2117-2118, and generator exhaustion for the
`with` block). -/
inductive GenStep : GenSystem → GenSystem → Prop where
  | acquireFirst (s : GenSystem) (h1 : s.lockOwner = none)
      (h2 : s.stFirst = .idle) :
      GenStep s { s with lockOwner := some .first, stFirst := .holding 0 }
  | acquireSecond (s : GenSystem) (h1 : s.lockOwner = none)
      (h2 : s.stSecond = .idle) :
      GenStep s { s with lockOwner := some .second, stSecond := .holding 0 }
  | tryFailFirst (s : GenSystem) (c : GenCaller) (h1 : s.lockOwner = some c)
      (h2 : s.stFirst = .idle) :
      GenStep s { s with stFirst := .finished 0 }
  | tryFailSecond (s : GenSystem) (c : GenCaller) (h1 : s.lockOwner = some c)
      (h2 : s.stSecond = .idle) :
      GenStep s { s with stSecond := .finished 0 }
  | tokenFirst (s : GenSystem) (k : ℕ) (h : s.stFirst = .holding k) :
      GenStep s { s with
        stFirst := .holding (k + 1)
        tokens := s.tokens ++ [.first] }
  | tokenSecond (s : GenSystem) (k : ℕ) (h : s.stSecond = .holding k) :
      GenStep s { s with
        stSecond := .holding (k + 1)
        tokens := s.tokens ++ [.second] }
  | releaseFirst (s : GenSystem) (k : ℕ) (h : s.stFirst = .holding k) :
      GenStep s { s with stFirst := .finished k, lockOwner := none }
  | releaseSecond (s : GenSystem) (k : ℕ) (h : s.stSecond = .holding k) :
      GenStep s { s with stSecond := .finished k, lockOwner := none }

/-- States reachable from the initial state by generation-lock steps. -/
inductive GenReachable : GenSystem → Prop where
  | init : GenReachable genInit
  | step {s t : GenSystem} : GenReachable s → GenStep s t → GenReachable t

/-- The inductive invariant of the generation-lock system: a holding
call owns the lock, and the token trace is two thread-pure blocks, the
block of a call still holding the lock coming last. -/
def GenInv (s : GenSystem) : Prop :=
  (∀ k, s.stFirst = .holding k → s.lockOwner = some .first) ∧
  (∀ k, s.stSecond = .holding k → s.lockOwner = some .second) ∧
  (s.tokens = List.replicate s.stFirst.produced .first ++
      List.replicate s.stSecond.produced .second ∨
    s.tokens = List.replicate s.stSecond.produced .second ++
      List.replicate s.stFirst.produced .first) ∧
  ((∃ k, s.stFirst = .holding k) → 0 < s.stSecond.produced →
    s.tokens = List.replicate s.stSecond.produced .second ++
      List.replicate s.stFirst.produced .first) ∧
  ((∃ k, s.stSecond = .holding k) → 0 < s.stFirst.produced →
    s.tokens = List.replicate s.stFirst.produced .first ++
      List.replicate s.stSecond.produced .second)

end GhostType

namespace GhostType

/-- Claim C10: for every dictate, ask, translate, or prepared-transcript
request, the max-tokens budget actually passed to generation equals
`max(1, min(requested, 350))`, hence is always within `[1, 350]`. -/
theorem max_tokens_clamped (v : ℤ) :
    runDictateMaxTokens v = max 1 (min v 350) ∧
    runAskMaxTokens v = max 1 (min v 350) ∧
    runTranslateMaxTokens v = max 1 (min v 350) ∧
    preparedTranscriptMaxTokens v = max 1 (min v 350) ∧
    1 ≤ clampMaxTokens v ∧ clampMaxTokens v ≤ 350 := by
  refine ⟨rfl, rfl, rfl, rfl, le_max_left _ _, ?_⟩
  have h : min v 350 ≤ 350 := min_le_right _ _
  simp only [clampMaxTokens, max_le_iff]
  exact ⟨by norm_num, h⟩

/-- Claim C9: resampling with equal source and destination rates returns
the signal unchanged. -/
theorem resample_equal_rates_identity (signal : List ℚ) (srcRate dstRate : ℕ)
    (h : srcRate = dstRate) : resampleLinear signal srcRate dstRate = signal := by
  unfold resampleLinear
  exact if_pos (Or.inr h)

/-- Witness for C9 at a concrete signal and rate. -/
theorem resample_equal_rates_identity_witness :
    resampleLinear [1, 2, 3] 44100 44100 = [1, 2, 3] :=
  resample_equal_rates_identity [1, 2, 3] 44100 44100 rfl

/-- Claim C2: a watchdog poll evicts the loaded model exactly when the
idle timeout is set, a model is loaded, and the elapsed time since the
last activity is at least the timeout; while the elapsed time is
strictly below the timeout the poll changes nothing. -/
theorem watchdog_evicts_iff (now : ℚ) (s : WatchState) :
    (((watchdogPoll now s).modelLoaded = false ∧ s.modelLoaded = true) ↔
      ∃ t, s.idleTimeoutSeconds = some t ∧ s.modelLoaded = true ∧
        t ≤ now - s.lastActive) ∧
    (∀ t, s.idleTimeoutSeconds = some t → now - s.lastActive < t →
      watchdogPoll now s = s) := by
  constructor
  · constructor
    · rintro ⟨hafter, hbefore⟩
      by_cases hrel : watchdogShouldRelease now s = true
      · rcases ht : s.idleTimeoutSeconds with _ | t
        · simp [watchdogShouldRelease, ht] at hrel
        · refine ⟨t, rfl, hbefore, ?_⟩
          simpa [watchdogShouldRelease, ht, hbefore] using hrel
      · rw [Bool.not_eq_true] at hrel
        simp [watchdogPoll, hrel, hbefore] at hafter
    · rintro ⟨t, ht, hloaded, helapsed⟩
      have hrel : watchdogShouldRelease now s = true := by
        simp [watchdogShouldRelease, ht, hloaded, helapsed]
      simp [watchdogPoll, hrel, hloaded]
  · intro t ht helapsed
    have hrel : watchdogShouldRelease now s = false := by
      simp [watchdogShouldRelease, ht, not_le.mpr helapsed]
    simp [watchdogPoll, hrel]

/-- Witness for C2: with a 20-second timeout and 10 elapsed seconds the
poll leaves the state untouched, and an eviction at 30 elapsed seconds
satisfies the stated condition. -/
theorem watchdog_evicts_iff_witness :
    watchdogPoll 10 ⟨some 20, true, 0⟩ = ⟨some 20, true, 0⟩ ∧
    ((watchdogPoll 30 ⟨some 20, true, 0⟩).modelLoaded = false ∧
      (⟨some 20, true, 0⟩ : WatchState).modelLoaded = true) := by
  constructor
  · exact (watchdog_evicts_iff 10 ⟨some 20, true, 0⟩).2 20 rfl (by norm_num)
  · exact (watchdog_evicts_iff 30 ⟨some 20, true, 0⟩).1.mpr
      ⟨20, rfl, rfl, by norm_num⟩

end GhostType

namespace GhostType

theorem mem_pushMax {α : Type} {n : ℕ} {xs : List α} {x a : α}
    (h : a ∈ pushMax n xs x) : a ∈ xs ∨ a = x := by
  have h2 : a ∈ xs ++ [x] := List.mem_of_mem_drop h
  simpa using h2

theorem pushMax_zero {α : Type} (xs : List α) (x : α) : pushMax 0 xs x = [] := by
  simp [pushMax]

theorem segTotal_append (l1 l2 : List (List ℚ)) :
    segTotal (l1 ++ l2) = segTotal l1 + segTotal l2 := by
  simp [segTotal]

theorem sum_take_le_sum (L : List ℕ) (k : ℕ) : (L.take k).sum ≤ L.sum := by
  have := List.sum_take_add_sum_drop L k
  omega

theorem segTotal_take_le (l : List (List ℚ)) (k : ℕ) :
    segTotal (l.take k) ≤ segTotal l := by
  simp only [segTotal, List.map_take]
  exact sum_take_le_sum _ _

theorem flatten_length_of_forall {l : List (List ℚ)} {n : ℕ}
    (h : ∀ f ∈ l, f.length = n) : l.flatten.length = n * l.length := by
  induction l with
  | nil => simp
  | cons a t ih =>
    have ha : a.length = n := h a (List.mem_cons_self a t)
    have ht : t.flatten.length = n * t.length :=
      ih (fun f hf => h f (List.mem_cons_of_mem _ hf))
    simp only [List.flatten_cons, List.length_append, ha, ht, List.length_cons]
    ring

theorem segStep_len_inv {p : SegParams} {fs : ℕ} (hfs : p.frameSize = fs)
    (hmax : 3 ≤ p.maxSegmentFrames) {s : SegState} {fr : List ℚ} {b : Bool}
    (hfr : fr.length = fs) (hinv : SegLenInv fs s) :
    SegLenInv fs (segStep p s fr b) := by
  obtain ⟨hpre, hcur, hseg⟩ := hinv
  have hpre2 : ∀ f ∈ pushMax p.preRollFrames s.preRoll fr, f.length = fs := by
    intro f hf
    rcases mem_pushMax hf with h | h
    · exact hpre f h
    · rw [h]; exact hfr
  have hcur2 : ∀ f ∈ s.currentFrames ++ [fr], f.length = fs := by
    intro f hf
    rcases List.mem_append.mp hf with h | h
    · exact hcur f h
    · simp only [List.mem_singleton] at h; rw [h]; exact hfr
  have hsegCons : ∀ (x : List ℚ), fs * 3 ≤ x.length →
      ∀ g ∈ s.segments ++ [x], fs * 3 ≤ g.length := by
    intro x hx g hg
    rcases List.mem_append.mp hg with h | h
    · exact hseg g h
    · simp only [List.mem_singleton] at h; rw [h]; exact hx
  simp only [segStep]
  split_ifs
  all_goals first
    | exact ⟨hpre2, hpre2, hseg⟩
    | exact ⟨hpre2, hcur, hseg⟩
    | exact ⟨hpre2, hcur2, hseg⟩
    | exact ⟨hpre2, by simp, hseg⟩
    | exact ⟨hpre2, by simp, hsegCons _ (by rw [← hfs]; assumption)⟩
    | exact ⟨hpre2, by simp, hsegCons _ (by
        rw [flatten_length_of_forall hcur2]
        exact mul_le_mul_left' (le_trans hmax (by assumption)) fs)⟩

theorem runSegLoop_len_inv {p : SegParams} {fs : ℕ} (hfs : p.frameSize = fs)
    (hmax : 3 ≤ p.maxSegmentFrames) :
    ∀ (pairs : List (List ℚ × Bool)) (s : SegState),
      (∀ q ∈ pairs, q.1.length = fs) → SegLenInv fs s →
      SegLenInv fs (runSegLoop p pairs s) := by
  intro pairs
  induction pairs with
  | nil => intro s _ h; exact h
  | cons q t ih =>
    intro s hq hinv
    simp only [runSegLoop, List.foldl_cons]
    exact ih _ (fun r hr => hq r (List.mem_cons_of_mem _ hr))
      (segStep_len_inv hfs hmax (hq q (List.mem_cons_self _ _)) hinv)

theorem segFlush_min_len {fs : ℕ} {s : SegState} (hinv : SegLenInv fs s) :
    ∀ g ∈ (segFlush fs s).1, fs * 3 ≤ g.length := by
  obtain ⟨-, -, hseg⟩ := hinv
  simp only [segFlush]
  split_ifs with h1 h2
  · exact hseg
  · intro g hg
    rcases List.mem_append.mp hg with h | h
    · exact hseg g h
    · simp only [List.mem_singleton] at h; rw [h]; exact h2
  · exact hseg

theorem load_emit_le (segs cur : List (List ℚ)) (fr : List ℚ) (K : ℕ) :
    segTotal (segs ++ [((cur ++ [fr]).take K).flatten]) +
      segTotal ([] : List (List ℚ)) ≤
    segTotal segs + segTotal cur + fr.length := by
  simp only [segTotal, List.map_append, List.map_cons, List.map_nil,
    List.sum_append, List.sum_cons, List.sum_nil, List.length_flatten,
    List.map_take]
  have h := sum_take_le_sum (List.map List.length cur ++ [fr.length]) K
  simp only [List.sum_append, List.sum_cons, List.sum_nil] at h
  omega

theorem segStep_load_le {p : SegParams} (hpre0 : p.preRollFrames = 0)
    {s : SegState} {fr : List ℚ} {b : Bool} :
    (segStep p s fr b).preRoll = [] ∧
    segSampleLoad (segStep p s fr b) ≤ segSampleLoad s + fr.length := by
  have hpz : pushMax p.preRollFrames s.preRoll fr = [] := by
    rw [hpre0]; exact pushMax_zero _ _
  simp only [segStep, hpz]
  split_ifs
  all_goals refine ⟨rfl, ?_⟩
  all_goals first
    | (simp only [segSampleLoad, segTotal, List.map_append, List.map_nil,
        List.sum_append, List.sum_nil, List.map_cons, List.sum_cons,
        List.length_flatten, List.map_take]
       omega)
    | exact load_emit_le s.segments s.currentFrames fr _

theorem runSegLoop_load_le {p : SegParams} (hpre0 : p.preRollFrames = 0) :
    ∀ (pairs : List (List ℚ × Bool)) (s : SegState),
      segSampleLoad (runSegLoop p pairs s) ≤
        segSampleLoad s + (pairs.map (fun q => q.1.length)).sum := by
  intro pairs
  induction pairs with
  | nil => intro s; simp [runSegLoop]
  | cons q t ih =>
    intro s
    simp only [runSegLoop, List.foldl_cons, List.map_cons, List.sum_cons]
    have h1 := (@segStep_load_le p hpre0 s q.1 q.2).2
    have h2 := ih (segStep p s q.1 q.2)
    simp only [runSegLoop] at h2
    omega

theorem segFlush_total_le (fs : ℕ) (s : SegState) :
    segTotal (segFlush fs s).1 ≤ segSampleLoad s := by
  simp only [segFlush, segSampleLoad]
  split_ifs with h1 h2 <;> dsimp only
  · omega
  · rw [segTotal_append]
    simp [segTotal, List.length_flatten]
  · omega

theorem zip_fst_sum_le (l1 : List (List ℚ)) (l2 : List Bool) :
    ((l1.zip l2).map (fun q => q.1.length)).sum ≤ (l1.map List.length).sum := by
  induction l1 generalizing l2 with
  | nil => simp
  | cons a t ih =>
    cases l2 with
    | nil => simp
    | cons b u =>
      simp only [List.zip_cons_cons, List.map_cons, List.sum_cons]
      have := ih u
      omega

theorem segParams_350_160_100 :
    segParamsOf 350 160 100 = ⟨10, 35, 18, 3000, 160⟩ := by
  have h350 : (((350:ℤ):ℚ) / 10) = 35 := by norm_num
  have h100 : (((100:ℤ):ℚ) / 10) = 10 := by norm_num
  have hf35 : (⌊(35:ℚ)⌋ : ℤ) = 35 := by norm_num
  have hf10 : (⌊(10:ℚ)⌋ : ℤ) = 10 := by norm_num
  have hr35 : pythonRound (35:ℚ) = 35 := by
    simp only [pythonRound, hf35]
    norm_num
  have hr10 : pythonRound (10:ℚ) = 10 := by
    simp only [pythonRound, hf10]
    norm_num
  have hf17 : ⌊(35:ℚ)/2⌋ = 17 := by
    rw [Int.floor_eq_iff]
    norm_num
  have hr18 : pythonRound ((35:ℚ)/2) = 18 := by
    simp only [pythonRound, hf17]
    norm_num
  simp only [segParamsOf, h350, h100, hr35, hr10]
  have hb : (max 20 (min (35:ℤ) 120)).toNat = 35 := by decide
  have hc : ((35:ℕ):ℚ) = 35 := by norm_num
  rw [hb, hc, hr18]
  decide

/-- Claim C4: with 160-sample frames, every segment `_segment_by_vad`
emits is at least three frames (480 samples) long: segments closed by
the silence-exit or end-of-input flush pass an explicit
`size >= frame_size * 3` check, and forced 30-second splits hold
`max_segment_frames = 3000 >= 3` full frames. -/
theorem segment_min_three_frames (frames : List (List ℚ)) (flags : List Bool)
    (antiMs preMs : ℤ) (hlen : ∀ f ∈ frames, f.length = 160) :
    ∀ seg ∈ (segmentByVad frames flags antiMs 160 preMs).1, 480 ≤ seg.length := by
  intro seg hseg
  simp only [segmentByVad] at hseg
  split_ifs at hseg with h
  · simp at hseg
  · have hfs : (segParamsOf antiMs 160 preMs).frameSize = 160 := rfl
    have hmax : 3 ≤ (segParamsOf antiMs 160 preMs).maxSegmentFrames := by
      norm_num [segParamsOf]
    have hinv0 : SegLenInv 160 segInit := by
      refine ⟨?_, ?_, ?_⟩ <;> simp [segInit]
    have hq : ∀ q ∈ frames.zip flags, q.1.length = 160 := fun q hq =>
      hlen q.1 (List.of_mem_zip hq).1
    have hinv := runSegLoop_len_inv hfs hmax (frames.zip flags) segInit hq hinv0
    have h3 := segFlush_min_len hinv seg hseg
    simpa using h3

set_option maxRecDepth 100000 in
/-- Witness for C4: five all-speech 160-sample frames produce one
800-sample segment, which the theorem bounds below by 480. -/
theorem segment_min_three_frames_witness :
    (∀ f ∈ List.replicate 5 (List.replicate 160 (1:ℚ)), f.length = 160) ∧
    ∃ seg ∈ (segmentByVad (List.replicate 5 (List.replicate 160 (1:ℚ)))
      (List.replicate 5 true) 350 160 100).1, 480 ≤ seg.length := by
  refine ⟨by decide, List.replicate 800 (1:ℚ), ?_,
    segment_min_three_frames (List.replicate 5 (List.replicate 160 (1:ℚ)))
      (List.replicate 5 true) 350 100 (by decide)
      (List.replicate 800 (1:ℚ)) ?_⟩ <;>
  · simp only [segmentByVad, segParams_350_160_100]
    decide

set_option maxRecDepth 100000 in
/-- Counterexample to claim C3 as stated: a 481-sample input splits into
four frames (the last zero-padded), and under all-speech flags the
segmenter emits 640 samples, exceeding the 481 input samples. -/
theorem segment_total_exceeds_input :
    (List.replicate 481 (1:ℚ)).length <
      segTotal (segmentByVad (splitIntoFrames (List.replicate 481 (1:ℚ)) 160)
        [true, true, true, true] 350 160 100).1 := by
  simp only [segmentByVad, segParams_350_160_100]
  decide

/-- Claim C3 (amended): when the pre-roll window is zero frames, the
samples over all emitted segments never exceed the samples over the
input frame sequence (the input length rounded up to a whole frame);
with a nonzero pre-roll window or a zero-padded final frame the emitted
total can exceed the raw input length. -/
theorem segment_total_bounded_zero_preroll (frames : List (List ℚ))
    (flags : List Bool) (antiMs : ℤ) (fs : ℕ) :
    segTotal (segmentByVad frames flags antiMs fs 0).1 ≤
      (frames.map List.length).sum := by
  simp only [segmentByVad]
  split_ifs with h
  · simp [segTotal]
  · have hpre0 : (segParamsOf antiMs fs 0).preRollFrames = 0 := by
      have h0 : (((0:ℤ):ℚ) / 10) = 0 := by norm_num
      simp [segParamsOf, pythonRound, h0]
    calc segTotal (segFlush fs (runSegLoop (segParamsOf antiMs fs 0)
          (frames.zip flags) segInit)).1
        ≤ segSampleLoad (runSegLoop (segParamsOf antiMs fs 0)
          (frames.zip flags) segInit) := segFlush_total_le _ _
      _ ≤ segSampleLoad segInit +
          ((frames.zip flags).map (fun q => q.1.length)).sum :=
        runSegLoop_load_le hpre0 _ _
      _ = ((frames.zip flags).map (fun q => q.1.length)).sum := by
        simp [segSampleLoad, segInit, segTotal]
      _ ≤ (frames.map List.length).sum := zip_fst_sum_le _ _

end GhostType

namespace GhostType

/-- Claim C7: `_prepare_audio_for_transcription` returns exactly the
original input path with no cleanup files whenever enhancement is
disabled or the mode is `off`, and likewise, non-fatally, whenever the
decoded signal has zero length (the load exception case also returns the
original path). -/
theorem prepare_audio_early_returns (cfg : AudioEnhancementConfig)
    (audioPath : String) (loadResult : Except String (List ℚ))
    (rest : List ℚ → AudioEnhancementResult)
    (h : cfg.enabled = false ∨ cfg.mode = "off" ∨
      loadResult = .ok ([] : List ℚ)) :
    prepareAudioForTranscription cfg audioPath loadResult rest =
      ⟨[audioPath], []⟩ := by
  unfold prepareAudioForTranscription
  rcases h with h | h | h
  · rw [if_pos (Or.inl h)]
  · rw [if_pos (Or.inr h)]
  · subst h
    split_ifs with hoff
    · rfl
    · rfl

/-- Witness for C7: a disabled-enhancement request gets its own path
back even though the downstream pipeline would produce segments. -/
theorem prepare_audio_early_returns_witness :
    prepareAudioForTranscription { defaultAudioConfig with enabled := false }
      "a.wav" (.ok [1]) (fun _ => ⟨["seg"], ["tmp"]⟩) = ⟨["a.wav"], []⟩ :=
  prepare_audio_early_returns _ _ _ _ (Or.inl rfl)

/-- Claim C6: every output sample of the soft limiter has absolute value
at most 1; the limiter computes `tanh(1.6*x)/tanh(1.6)` clipped to
`[-1, 1]`, and counts as limiter hits exactly the samples whose
pre-limiter magnitude exceeds 0.97. -/
theorem soft_limiter_spec (s : List ℝ) :
    (∀ y ∈ (applySoftLimiter s).1, |y| ≤ 1) ∧
    (applySoftLimiter s).1 =
      s.map (fun x => min 1 (max (-1) (Real.tanh (x * 1.6) / Real.tanh 1.6))) ∧
    (applySoftLimiter s).2 =
      [("limiter_trigger_count",
        StatVal.intVal (s.countP (fun x => decide ((0.97:ℝ) < |x|))))] := by
  refine ⟨?_, rfl, rfl⟩
  intro y hy
  simp only [applySoftLimiter, List.mem_map] at hy
  obtain ⟨x, -, hx⟩ := hy
  rw [← hx]
  rw [abs_le]
  constructor
  · exact le_min (by norm_num) (le_max_left _ _)
  · exact min_le_left _ _

/-- Witness for C6: the limited value of the out-of-range sample 2 is
bounded by 1 in magnitude. -/
theorem soft_limiter_spec_witness : |limitSample 2| ≤ 1 :=
  (soft_limiter_spec [2]).1 (limitSample 2) (by simp [applySoftLimiter])

/-- Claim C8: the v2 enhancement step is total (it never raises), and in
all three failure cases — engine module missing, config classes missing,
engine exception — it returns the legacy boost-plus-limiter result with
the fallback reason recorded under `v2_backend` (plus `v2_error` for a
runtime exception). -/
theorem enhancement_v2_fallback (classesAvail : Bool)
    (det : Option (List ℝ → Option Bool)) (cfg : AudioEnhancementConfig)
    (signal : List ℝ) :
    (applyEnhancementV2 none classesAvail det cfg signal =
      ((applyLowVolumeBoostAndLimiter cfg signal).1,
       (applyLowVolumeBoostAndLimiter cfg signal).2 ++
         [("v2_backend", StatVal.str "legacy_fallback_module_missing")])) ∧
    (∀ eng : V2Engine, classesAvail = false →
      applyEnhancementV2 (some eng) classesAvail det cfg signal =
        ((applyLowVolumeBoostAndLimiter cfg signal).1,
         (applyLowVolumeBoostAndLimiter cfg signal).2 ++
           [("v2_backend", StatVal.str "legacy_fallback_config_missing")])) ∧
    (∀ (eng : V2Engine) (v2cfg : EnhancementV2Config) (e : String),
      buildV2EngineConfig classesAvail cfg = some v2cfg →
      eng.process v2cfg signal
        (speechMaskFromVadFlags
          (detectSpeechFrames cfg cfg.vad_engine det (splitIntoFrames signal 160))
          160 signal.length) = .error e →
      applyEnhancementV2 (some eng) classesAvail det cfg signal =
        ((applyLowVolumeBoostAndLimiter cfg signal).1,
         (applyLowVolumeBoostAndLimiter cfg signal).2 ++
           [("v2_backend", StatVal.str "legacy_fallback_runtime_error"),
            ("v2_error", StatVal.str e)])) := by
  refine ⟨rfl, ?_, ?_⟩
  · intro eng hc
    subst hc
    rfl
  · intro eng v2cfg e hb hp
    simp only [applyEnhancementV2, hb, hp]

/-- Witness for C8: with the config classes unavailable and an engine
that would raise, the result is the legacy signal tagged
`legacy_fallback_config_missing`. -/
theorem enhancement_v2_fallback_witness :
    applyEnhancementV2 (some ⟨fun _ _ _ => .error "boom"⟩) false none
      defaultAudioConfig [] =
      ((applyLowVolumeBoostAndLimiter defaultAudioConfig []).1,
       (applyLowVolumeBoostAndLimiter defaultAudioConfig []).2 ++
         [("v2_backend", StatVal.str "legacy_fallback_config_missing")]) :=
  (enhancement_v2_fallback false none defaultAudioConfig []).2.1
    ⟨fun _ _ _ => .error "boom"⟩ rfl

theorem foldr_max_replicate (n : ℕ) (hn : n ≠ 0) (c : ℝ) :
    (List.replicate n c).foldr max 0 = max c 0 := by
  induction n with
  | zero => exact absurd rfl hn
  | succ m ih =>
    cases Nat.eq_zero_or_pos m with
    | inl h0 =>
      subst h0
      simp
    | inr hpos =>
      rw [List.replicate_succ, List.foldr_cons, ih (Nat.pos_iff_ne_zero.mp hpos)]
      rw [← max_assoc, max_self]

theorem rms_replicate {n : ℕ} (hn : n ≠ 0) {c : ℝ} (hc : 0 ≤ c) :
    estimateRmsDbfs (List.replicate n c) =
      20 * Real.logb 10 (max c (1e-7)) := by
  simp only [estimateRmsDbfs, List.length_replicate]
  rw [if_neg hn]
  have h1 : (List.replicate n c).map (fun x => x ^ 2) =
      List.replicate n (c ^ 2) := List.map_replicate
  rw [h1, List.sum_replicate, nsmul_eq_mul]
  have hn2 : ((n:ℝ)) ≠ 0 := Nat.cast_ne_zero.mpr hn
  rw [mul_div_cancel_left₀ _ hn2, Real.sqrt_sq hc]

theorem peak_replicate {n : ℕ} (hn : n ≠ 0) {c : ℝ} (hc : 0 ≤ c) :
    estimatePeakDbfs (List.replicate n c) =
      20 * Real.logb 10 (max c (1e-7)) := by
  simp only [estimatePeakDbfs, List.length_replicate]
  rw [if_neg hn]
  have h1 : (List.replicate n c).map (fun x => |x|) = List.replicate n c := by
    rw [List.map_replicate, abs_of_nonneg hc]
  rw [h1, foldr_max_replicate n hn, max_eq_left hc]

theorem rpow_51_20_bounds :
    (0:ℝ) ≤ (10:ℝ) ^ ((-51:ℝ)/20) ∧ (1e-7:ℝ) ≤ (10:ℝ) ^ ((-51:ℝ)/20) := by
  constructor
  · exact le_of_lt (Real.rpow_pos_of_pos (by norm_num) _)
  · have h7 : (1e-7:ℝ) = (10:ℝ) ^ ((-7:ℝ)) := by
      rw [show ((-7:ℝ)) = ((-7:ℤ):ℝ) by norm_num, Real.rpow_intCast]
      norm_num
    rw [h7]
    exact (Real.rpow_le_rpow_left_iff (by norm_num)).mpr (by norm_num)

theorem rms_dbfs_51 :
    estimateRmsDbfs (List.replicate 160 ((10:ℝ) ^ ((-51:ℝ)/20))) = -51 ∧
    estimatePeakDbfs (List.replicate 160 ((10:ℝ) ^ ((-51:ℝ)/20))) = -51 := by
  obtain ⟨hc, h7⟩ := rpow_51_20_bounds
  have hlog : Real.logb 10 ((10:ℝ) ^ ((-51:ℝ)/20)) = (-51)/20 :=
    Real.logb_rpow (by norm_num) (by norm_num)
  constructor
  · rw [rms_replicate (by norm_num) hc, max_eq_left h7, hlog]
    ring
  · rw [peak_replicate (by norm_num) hc, max_eq_left h7, hlog]
    ring

/-- Counterexample to claim C5 as stated: the code keys the energy gate
on `low_volume_boost`, not on the noise-suppression level.  A frame at
-51 dBFS with boost level `medium` (code gate -52) and noise-suppression
level `low` (claimed gate -49) is classified as speech by the code but
not by the claimed rule. -/
theorem energy_gate_counterexample :
    energyFrameFlag
      { defaultAudioConfig with
        low_volume_boost := "medium"
        noise_suppression_level := "low" }
      (List.replicate 160 ((10:ℝ) ^ ((-51:ℝ)/20))) = true ∧
    ¬ specEnergySpeech
      { defaultAudioConfig with
        low_volume_boost := "medium"
        noise_suppression_level := "low" }
      (List.replicate 160 ((10:ℝ) ^ ((-51:ℝ)/20))) := by
  obtain ⟨hrms, hpeak⟩ := rms_dbfs_51
  constructor
  · simp only [energyFrameFlag, Bool.or_eq_true, decide_eq_true_eq]
    left
    rw [hrms]
    have hml : ¬ ("medium" = "low") := by simp
    rw [rmsGateFor, if_neg hml, if_pos rfl]
    norm_num
  · simp only [specEnergySpeech, not_or, not_le]
    rw [hrms, hpeak]
    rw [specNoiseGateFor, if_pos rfl]
    norm_num

/-- Claim C5 (amended): in the energy-fallback branch (no dedicated
detector), a frame is classified as speech if and only if its RMS dBFS
is at least the gate determined by the low-volume-boost level
(low: -49, medium: -52, high: -55, default -52) or its peak dBFS is at
least gate + 8. -/
theorem energy_gate_iff (cfg : AudioEnhancementConfig) (eng : String)
    (frames : List (List ℝ)) (frame : List ℝ) :
    detectSpeechFrames cfg eng none frames =
      frames.map (energyFrameFlag cfg) ∧
    (energyFrameFlag cfg frame = true ↔
      rmsGateFor cfg.low_volume_boost ≤ estimateRmsDbfs frame ∨
      rmsGateFor cfg.low_volume_boost + 8 ≤ estimatePeakDbfs frame) := by
  constructor
  · have hdet : detectSpeechFrames cfg eng none frames =
        detectSpeechLoop cfg frames none := by
      simp only [detectSpeechFrames]
      split_ifs <;> rfl
    rw [hdet]
    have hloop : ∀ fs : List (List ℝ),
        detectSpeechLoop cfg fs none = fs.map (energyFrameFlag cfg) := by
      intro fs
      induction fs with
      | nil => rfl
      | cons a t ih => simp only [detectSpeechLoop, List.map_cons, ih]
    exact hloop frames
  · simp [energyFrameFlag]

theorem produced_idle : GenStatus.idle.produced = 0 := rfl

theorem produced_holding (k : ℕ) : (GenStatus.holding k).produced = k := rfl

theorem produced_finished (k : ℕ) : (GenStatus.finished k).produced = k := rfl

theorem genStep_inv {s t : GenSystem} (hstep : GenStep s t)
    (hinv : GenInv s) : GenInv t := by
  obtain ⟨h1, h2, h3, h4, h5⟩ := hinv
  cases hstep with
  | acquireFirst hl hf =>
    refine ⟨fun k _ => rfl, ?_, ?_, ?_, ?_⟩
    · intro k hk
      have := h2 k hk
      rw [hl] at this
      exact absurd this (by simp)
    · simpa [hf, produced_idle, produced_holding] using h3
    · intro _ _
      rcases h3 with h | h <;> rw [hf, produced_idle] at h <;>
        simp only [List.replicate_zero, List.nil_append, List.append_nil] at h <;>
        simp [produced_holding, h]
    · rintro ⟨k, hk⟩
      have := h2 k hk
      rw [hl] at this
      exact absurd this (by simp)
  | acquireSecond hl hf =>
    refine ⟨?_, fun k _ => rfl, ?_, ?_, ?_⟩
    · intro k hk
      have := h1 k hk
      rw [hl] at this
      exact absurd this (by simp)
    · simpa [hf, produced_idle, produced_holding] using h3
    · rintro ⟨k, hk⟩
      have := h1 k hk
      rw [hl] at this
      exact absurd this (by simp)
    · intro _ _
      rcases h3 with h | h <;> rw [hf, produced_idle] at h <;>
        simp only [List.replicate_zero, List.nil_append, List.append_nil] at h <;>
        simp [produced_holding, h]
  | tryFailFirst c hl hf =>
    refine ⟨nofun, h2, ?_, nofun, ?_⟩
    · simpa [hf, produced_idle, produced_finished] using h3
    · intro hB hpos
      rw [produced_finished] at hpos
      exact absurd hpos (by simp)
  | tryFailSecond c hl hf =>
    refine ⟨h1, nofun, ?_, ?_, nofun⟩
    · simpa [hf, produced_idle, produced_finished] using h3
    · intro hA hpos
      rw [produced_finished] at hpos
      exact absurd hpos (by simp)
  | tokenFirst k hk =>
    have hlock : s.lockOwner = some .first := h1 k hk
    have hB : ∀ j, ¬ s.stSecond = .holding j := by
      intro j hj
      have := h2 j hj
      rw [hlock] at this
      simp at this
    refine ⟨fun _ _ => hlock, fun j hj => absurd hj (hB j), ?_, ?_, ?_⟩
    · rcases Nat.eq_zero_or_pos s.stSecond.produced with hz | hpos
      · left
        have hzs : List.replicate s.stSecond.produced GenCaller.second =
            ([] : List GenCaller) := by rw [hz]; rfl
        rcases h3 with h | h <;> rw [hk, produced_holding, hzs] at h <;>
          simp only [List.append_nil, List.nil_append] at h <;>
          simp only [produced_holding, hzs, List.append_nil] <;>
          rw [h, List.replicate_succ']
      · right
        have h := h4 ⟨k, hk⟩ hpos
        rw [hk, produced_holding] at h
        simp only [produced_holding]
        rw [h, List.replicate_succ' k, ← List.append_assoc]
    · intro _ hpos
      have h := h4 ⟨k, hk⟩ hpos
      rw [hk, produced_holding] at h
      simp only [produced_holding]
      rw [h, List.replicate_succ' k, ← List.append_assoc]
    · rintro ⟨j, hj⟩
      exact absurd hj (hB j)
  | tokenSecond k hk =>
    have hlock : s.lockOwner = some .second := h2 k hk
    have hA : ∀ j, ¬ s.stFirst = .holding j := by
      intro j hj
      have := h1 j hj
      rw [hlock] at this
      simp at this
    refine ⟨fun j hj => absurd hj (hA j), fun _ _ => hlock, ?_, ?_, ?_⟩
    · rcases Nat.eq_zero_or_pos s.stFirst.produced with hz | hpos
      · right
        have hzs : List.replicate s.stFirst.produced GenCaller.first =
            ([] : List GenCaller) := by rw [hz]; rfl
        rcases h3 with h | h <;> rw [hk, produced_holding, hzs] at h <;>
          simp only [List.append_nil, List.nil_append] at h <;>
          simp only [produced_holding, hzs, List.append_nil] <;>
          rw [h, List.replicate_succ']
      · left
        have h := h5 ⟨k, hk⟩ hpos
        rw [hk, produced_holding] at h
        simp only [produced_holding]
        rw [h, List.replicate_succ' k, ← List.append_assoc]
    · rintro ⟨j, hj⟩
      exact absurd hj (hA j)
    · intro _ hpos
      have h := h5 ⟨k, hk⟩ hpos
      rw [hk, produced_holding] at h
      simp only [produced_holding]
      rw [h, List.replicate_succ' k, ← List.append_assoc]
  | releaseFirst k hk =>
    have hB : ∀ j, ¬ s.stSecond = .holding j := by
      intro j hj
      have := h2 j hj
      rw [h1 k hk] at this
      simp at this
    refine ⟨nofun, fun j hj => absurd hj (hB j), ?_, nofun, ?_⟩
    · simpa [hk, produced_holding, produced_finished] using h3
    · rintro ⟨j, hj⟩
      exact absurd hj (hB j)
  | releaseSecond k hk =>
    have hA : ∀ j, ¬ s.stFirst = .holding j := by
      intro j hj
      have := h1 j hj
      rw [h2 k hk] at this
      simp at this
    refine ⟨fun j hj => absurd hj (hA j), nofun, ?_, ?_, nofun⟩
    · simpa [hk, produced_holding, produced_finished] using h3
    · rintro ⟨j, hj⟩
      exact absurd hj (hA j)

/-- Claim C1: in every reachable state of the two-caller generation
system, a call that is producing tokens holds the generation lock, and
the token trace is two thread-pure blocks — the second call's first
token is never produced before the first call's last token (and
symmetrically). -/
theorem generation_serialized {s : GenSystem} (h : GenReachable s) :
    (∀ k, s.stFirst = .holding k → s.lockOwner = some .first) ∧
    (∀ k, s.stSecond = .holding k → s.lockOwner = some .second) ∧
    ∃ a b, s.tokens = List.replicate a GenCaller.first ++
        List.replicate b GenCaller.second ∨
      s.tokens = List.replicate b GenCaller.second ++
        List.replicate a GenCaller.first := by
  have hinv : GenInv s := by
    induction h with
    | init =>
      refine ⟨nofun, nofun, Or.inl rfl, ?_, ?_⟩ <;> rintro ⟨k, hk⟩ <;> cases hk
    | step hr hstep ih => exact genStep_inv hstep ih
  exact ⟨hinv.1, hinv.2.1, s.stFirst.produced, s.stSecond.produced, hinv.2.2.1⟩

/-- Witness for C1: a concrete run — first call acquires, produces a
token, releases; second call acquires and produces a token — reaches a
state whose trace the theorem splits into two pure blocks. -/
theorem generation_serialized_witness :
    ∃ a b, ([GenCaller.first, GenCaller.second] : List GenCaller) =
        List.replicate a GenCaller.first ++
          List.replicate b GenCaller.second ∨
      [GenCaller.first, GenCaller.second] =
        List.replicate b GenCaller.second ++
          List.replicate a GenCaller.first := by
  have h0 : GenReachable genInit := .init
  have h1 : GenReachable ⟨some .first, .holding 0, .idle, []⟩ :=
    h0.step (.acquireFirst _ rfl rfl)
  have h2 : GenReachable ⟨some .first, .holding 1, .idle, [.first]⟩ :=
    h1.step (.tokenFirst _ 0 rfl)
  have h3 : GenReachable ⟨none, .finished 1, .idle, [.first]⟩ :=
    h2.step (.releaseFirst _ 1 rfl)
  have h4 : GenReachable ⟨some .second, .finished 1, .holding 0, [.first]⟩ :=
    h3.step (.acquireSecond _ rfl rfl)
  have h5 : GenReachable
      ⟨some .second, .finished 1, .holding 1, [.first, .second]⟩ :=
    h4.step (.tokenSecond _ 0 rfl)
  exact (generation_serialized h5).2.2

end GhostType
